import Mathlib

unseal Rat.mul

/-!
Shallow embedding of the routing/fallback core of the hospitality
question-answering system: the SQL sanitizer and query pipeline of
`agents/booking_sql_agent.py`, the adaptive retriever and RAG engine of
`agents/hotel_rag_agent.py`, and the router/orchestrator of
`agents/hotel_orchestrator_agent.py`.

Python strings are modelled as `List Char` (or Lean `String` where convenient);
the regex character classes `\w`, `\s` and the identifier class
`[A-Za-z_][A-Za-z0-9_]*` are modelled over their ASCII meaning; float distance
scores are modelled as rationals (the selection logic only compares and
multiplies them). External collaborators (LLM chains, the vector store, the
relational store) are passed in as explicit values or functions; a Python call
that may raise is modelled as an `Except String` value.
-/

/-- Character class of the regex `\w` (word character, ASCII reading). -/
def isWordChar (c : Char) : Bool := c.isAlphanum || c == '_'

/-- Character class of the regex `[A-Za-z_]` (first character of an identifier). -/
def isIdentStart (c : Char) : Bool := c.isAlpha || c == '_'

/-- Character class of the regex `\s` and of Python `str.strip` (ASCII reading). -/
def isSpaceChar (c : Char) : Bool :=
  c == ' ' || c == '\t' || c == '\n' || c == '\r' || c == '\x0b' || c == '\x0c'

/-- Python `s.startswith(p)` over char lists: first argument is the string,
second the pattern. -/
def startsWithList : List Char → List Char → Bool
  | _, [] => true
  | [], _ :: _ => false
  | c :: cs, p :: ps => c == p && startsWithList cs ps

/-- Python `s.lstrip()`. -/
def pyLstrip (l : List Char) : List Char := l.dropWhile isSpaceChar

/-- Python `s.strip()`. -/
def pyStrip (l : List Char) : List Char :=
  ((l.dropWhile isSpaceChar).reverse.dropWhile isSpaceChar).reverse

/-- Head of the list is at a word boundary on its left side, i.e. the next
character (if any) is not a word character.  This is `\b` placed after a word
character. -/
def headNotWord : List Char → Bool
  | [] => true
  | c :: _ => !isWordChar c

/-- One match attempt of the regex `\b([A-Za-z_][A-Za-z0-9_]*)\s+on\b`
(from `_sanitize_sql`, rule 1) at the head of `l`.  The caller guarantees the
left word boundary and that the head is an identifier-start character.
Returns the captured identifier and the remainder after the matched span.
Because the identifier class, `\s` and the literal `on` are pairwise
disjoint character classes, the backtracking regex engine matches exactly the
maximal word-character run, then a maximal nonempty whitespace run, then the
literal `on` followed by a word boundary; no other parse can succeed at this
position. -/
def matchAliasDecl (l : List Char) : Option (List Char × List Char) :=
  let ident := l.takeWhile isWordChar
  let r1 := l.dropWhile isWordChar
  let ws := r1.takeWhile isSpaceChar
  let r2 := r1.dropWhile isSpaceChar
  if ws.isEmpty then none
  else
    match r2 with
    | 'o' :: 'n' :: rest => if headNotWord rest then some (ident, rest) else none
    | _ => none

/-- The scan of `re.sub(r"\b([A-Za-z_][A-Za-z0-9_]*)\s+on\b", r"\1 occ", sql)`:
left-to-right, non-overlapping; `prevW` tells whether the previous character of
the original string is a word character (so the word-boundary `\b` before the
group holds iff `!prevW`).  After a match the scan resumes after the matched
span, whose last character is the `n` of `on` (a word character).  The fuel
argument only makes the recursion structural; it is called with the length of
the list, which strictly bounds the number of steps. -/
def sub1 : Nat → Bool → List Char → List Char
  | 0, _, l => l
  | _ + 1, _, [] => []
  | fuel + 1, prevW, c :: cs =>
    if !prevW && isIdentStart c then
      match matchAliasDecl (c :: cs) with
      | some (ident, rest) => ident ++ ' ' :: 'o' :: 'c' :: 'c' :: sub1 fuel true rest
      | none => c :: sub1 fuel (isWordChar c) cs
    else c :: sub1 fuel (isWordChar c) cs

/-- Head-match of the regex `on\.` (from `_sanitize_sql`, rule 2), returning
the remainder after the matched three characters. -/
def matchOnDot : List Char → Option (List Char)
  | 'o' :: 'n' :: '.' :: rest => some rest
  | _ => none

/-- The scan of `re.sub(r"\bon\.", "occ.", sql)`, in the same style as `sub1`.
After a match the scan resumes after the `.`, a non-word character. -/
def sub2 : Nat → Bool → List Char → List Char
  | 0, _, l => l
  | _ + 1, _, [] => []
  | fuel + 1, prevW, c :: cs =>
    if prevW then c :: sub2 fuel (isWordChar c) cs
    else
      match matchOnDot (c :: cs) with
      | some rest => 'o' :: 'c' :: 'c' :: '.' :: sub2 fuel false rest
      | none => c :: sub2 fuel (isWordChar c) cs

/-- First substitution of `_sanitize_sql` on a whole string. -/
def pySub1 (l : List Char) : List Char := sub1 l.length false l

/-- Second substitution of `_sanitize_sql` on a whole string. -/
def pySub2 (l : List Char) : List Char := sub2 l.length false l

/-- Model of `_sanitize_sql` from `agents/booking_sql_agent.py`: the empty-string guard,
then the two `re.sub` rewrites in order. -/
def sanitizeSql (l : List Char) : List Char :=
  if l.isEmpty then l else pySub2 (pySub1 l)

/-- Scanning predicate: the string contains an occurrence of lowercase `on`
standing alone as a word - a word boundary on both sides (`prevW` is the
word-character status of the character before the scan head). -/
def hasIsolatedOn : Bool → List Char → Bool
  | _, [] => false
  | prevW, c :: cs =>
    (!prevW && c == 'o' &&
      (match cs with
       | 'n' :: r => headNotWord r
       | _ => false))
    || hasIsolatedOn (isWordChar c) cs

/-- The word-character status of the character just before the end of
`pre ++ ·`, given the status `b` of the character before `pre`. -/
def flagAfter (b : Bool) : List Char → Bool
  | [] => b
  | c :: cs => flagAfter (isWordChar c) cs

/-!  The adaptive retriever of `agents/hotel_rag_agent.py`. -/

/-- Stable insertion into a list sorted ascending by the rational score
component: the new pair goes after every earlier pair with score `≤` its own.
Together with `sortCandidates` this is the unique stable ascending-by-key sort,
i.e. exactly the result of Python `candidates.sort(key=lambda x: x[1])`. -/
def insertByScore {α : Type} (x : α × ℚ) : List (α × ℚ) → List (α × ℚ)
  | [] => [x]
  | y :: ys => if y.2 ≤ x.2 then y :: insertByScore x ys else x :: y :: ys

/-- Stable sort ascending by score, modelling `candidates.sort(key=lambda x: x[1])`. -/
def sortCandidates {α : Type} : List (α × ℚ) → List (α × ℚ)
  | [] => []
  | x :: xs => insertByScore x (sortCandidates xs)

/-- Score of the first candidate (`candidates[0][1]`); the `[]` case is
unreachable at its call site. -/
def headScore {α : Type} : List (α × ℚ) → ℚ
  | [] => 0
  | x :: _ => x.2

/-- Python `min(a, b)` on two scores (returns the first argument on ties). -/
def ratMin (a b : ℚ) : ℚ := if a ≤ b then a else b

/-- The selection loop of `_retrieve_docs_adaptive` over the sorted candidate
list, with the 1-based `idx` of `enumerate(..., start=1)` and the running
`len(chosen)`.  Returns the chosen pairs and the per-candidate decision reasons
recorded in the debug trace (for the candidates the loop processed before
breaking). -/
def selectLoop {α : Type} (minDocs maxDocs : Nat) (cutoff : ℚ) :
    Nat → Nat → List (α × ℚ) → List (α × ℚ) × List String
  | _, _, [] => ([], [])
  | idx, chosenLen, (d, s) :: rest =>
    if idx ≤ minDocs then
      let r := selectLoop minDocs maxDocs cutoff (idx + 1) (chosenLen + 1) rest
      ((d, s) :: r.1, ("within_min_docs") :: r.2)
    else if maxDocs ≤ chosenLen then
      ([], [("max_docs_reached")])
    else if s ≤ cutoff then
      let r := selectLoop minDocs maxDocs cutoff (idx + 1) (chosenLen + 1) rest
      ((d, s) :: r.1, ("score<=cutoff") :: r.2)
    else
      ([], [("score>cutoff_break")])

/-- The debug trace dictionary returned by `_retrieve_docs_adaptive`:
either the `no_candidates` dictionary or the `adaptive` one. -/
inductive RetrievalTrace where
  | noCandidates (candidates : Nat)
  | adaptive (candidates minDocs maxDocs candidatePool : Nat)
      (bestDistance absThreshold relMult cutoff : ℚ)
      (returned : Nat) (reasons : List String)
  deriving DecidableEq

/-- The `"mode"` entry of the trace dictionary. -/
def RetrievalTrace.mode : RetrievalTrace → String
  | .noCandidates _ => "no_candidates"
  | .adaptive .. => "adaptive"

/-- The recorded per-candidate decision reasons of the trace. -/
def RetrievalTrace.reasons : RetrievalTrace → List String
  | .noCandidates _ => []
  | .adaptive _ _ _ _ _ _ _ _ _ rs => rs

/-- Model of `_retrieve_docs_adaptive` from `agents/hotel_rag_agent.py`.  `candidates`
is the list returned by `similarity_search_with_score` for the question (at
most `candidatePool` pairs); the function sorts it ascending by distance,
computes `cutoff = min(abs_threshold, best * rel_mult)`, runs the selection
loop, and returns the selected documents plus the trace. -/
def retrieveDocsAdaptive {α : Type} (candidates : List (α × ℚ))
    (minDocs maxDocs candidatePool : Nat) (absThreshold relMult : ℚ) :
    List α × RetrievalTrace :=
  if candidates.isEmpty then ([], .noCandidates 0)
  else
    let sorted := sortCandidates candidates
    let best := headScore sorted
    let cutoff := ratMin absThreshold (Rat.mul best relMult)
    let r := selectLoop minDocs maxDocs cutoff 1 0 sorted
    (r.1.map Prod.fst,
     .adaptive candidates.length minDocs maxDocs candidatePool
       best absThreshold relMult cutoff (r.1.map Prod.fst).length r.2)

/-- The fixed no-information answer of `answer_hotel_question_rag`. -/
def noInfoAnswer : String :=
  "I couldn\x27t find relevant information in the knowledge base for that question."

/-- The generic error answer of `answer_hotel_question_rag`. -/
def ragErrorAnswer (e : String) : String :=
  "❌ Error while processing the question: " ++ e

/-- Model of `answer_hotel_question_rag` from `agents/hotel_rag_agent.py`, with the
vector-store search result passed in as `candidates` and the final LLM call
(prompt building plus `chain.invoke`) abstracted as `llm`, which may raise. -/
def answerHotelQuestionRag {α : Type} (candidates : List (α × ℚ))
    (minDocs maxDocs candidatePool : Nat) (absThreshold relMult : ℚ)
    (llm : List α → Except String String) : String :=
  let r := retrieveDocsAdaptive candidates minDocs maxDocs candidatePool absThreshold relMult
  if r.1.isEmpty then noInfoAnswer
  else
    match llm r.1 with
    | .ok ans => ans
    | .error e => ragErrorAnswer e

/-!  The two-phase query pipeline of `agents/booking_sql_agent.py`. -/

/-- Split a char list at the first occurrence of the literal fence ` ``` `:
returns the segment before it and the remainder after it. -/
def findFenceSplit : List Char → Option (List Char × List Char)
  | '`' :: '`' :: '`' :: rest => some ([], rest)
  | c :: cs =>
    match findFenceSplit cs with
    | some (seg, rest) => some (c :: seg, rest)
    | none => none
  | [] => none

/-- Consume the optional case-insensitive `sql` language tag of the regex
`(?:sql)?`. -/
def dropCiSql (l : List Char) : List Char :=
  match l with
  | s :: q :: t :: rest =>
    if (s == 's' || s == 'S') && (q == 'q' || q == 'Q') && (t == 'l' || t == 'L') then rest
    else l
  | _ => l

/-- Model of `_extract_sql` from `agents/booking_sql_agent.py`: the effect of
`re.search(r"```(?:sql)?\s*(.*?)```", text, DOTALL | IGNORECASE)`.
The backtracking search succeeds iff some fence `` ``` `` is followed (after the
optional tag and maximal whitespace run) by another fence; the lazy group then
captures up to the earliest closing fence.  When the first fence has no closing
fence, no later start position can succeed either (a closing fence for it would
also close the first), so the function falls back to `text.strip()`. -/
def extractSql (text : List Char) : List Char :=
  if text.isEmpty then []
  else
    match findFenceSplit text with
    | none => pyStrip text
    | some (_, afterOpen) =>
      let body := (dropCiSql afterOpen).dropWhile isSpaceChar
      match findFenceSplit body with
      | some (grp, _) => pyStrip grp
      | none => pyStrip text

/-- The fixed answer of `answer_booking_question_sql` when no SQL statement
could be extracted from the generator output. -/
def sqlEmptyAnswer : String :=
  "❌ I couldn\x27t generate a valid SQL query for that question.\n\nPlease try rephrasing your question."

/-- The user-facing error answer of `answer_booking_question_sql` when the
relational store raised while executing the sanitized statement. -/
def sqlExecErrorAnswer (e : String) : String :=
  "❌ There was an error executing the SQL query generated for your question.\n\nError: `"
    ++ e ++ "`\n\nYou might want to check date ranges, hotel names or filters."

/-- The answer of the outer `except` block of `answer_booking_question_sql`. -/
def sqlUnexpectedAnswer (e : String) : String :=
  "❌ Unexpected error while processing your question with the SQL agent: " ++ e

/-- The external collaborators of `answer_booking_question_sql` for one
question: the lazily-created database handle (`_get_db`), the SQL-generation
chain invocation, the relational store execution `db.run`, and the
answer/explanation chain invocation.  Every call that may raise is an
`Except String` value. -/
structure SqlAgentEnv where
  connectDb : Except String Unit
  generate : Except String String
  dbRun : List Char → Except String String
  explain : List Char → String → Except String String

/-- The body of `answer_booking_question_sql` (everything inside the outer
`try`).  The second component of the result counts how many times the
relational store was asked to execute a statement. -/
def answerBookingQuestionSqlBody (env : SqlAgentEnv) : Except String String × Nat :=
  match env.connectDb with
  | .error e => (.error e, 0)
  | .ok _ =>
    match env.generate with
    | .error e => (.error e, 0)
    | .ok raw =>
      let sqlQuery := extractSql raw.toList
      if sqlQuery.isEmpty then (.ok sqlEmptyAnswer, 0)
      else
        let sanitized := sanitizeSql sqlQuery
        match env.dbRun sanitized with
        | .error e => (.ok (sqlExecErrorAnswer e), 1)
        | .ok rawResult =>
          match env.explain sanitized rawResult with
          | .error e => (.error e, 1)
          | .ok ans => (.ok ans, 1)

/-- Model of `answer_booking_question_sql` from `agents/booking_sql_agent.py`: the body
wrapped in the outer `try/except`, which converts any uncaught exception into
the generic error answer.  The second component counts relational store
executions. -/
def answerBookingQuestionSql (env : SqlAgentEnv) : String × Nat :=
  match answerBookingQuestionSqlBody env with
  | (.ok s, n) => (s, n)
  | (.error e, n) => (sqlUnexpectedAnswer e, n)

/-!  The answer router of `agents/hotel_orchestrator_agent.py`. -/

/-- Model of `_looks_like_sql_error`: empty, or the left-stripped text starts with the
error-marker glyph. -/
def looksLikeSqlError (text : String) : Bool :=
  text.isEmpty || startsWithList (pyLstrip text.toList) (("❌").toList)

/-- The fixed sentence tested by `_looks_like_rag_no_info`. -/
def noInfoSentence : String :=
  "I couldn\x27t find relevant information in the knowledge base"

/-- Model of `_looks_like_rag_no_info`: empty, or the stripped text starts with the
fixed no-information sentence. -/
def looksLikeRagNoInfo (text : String) : Bool :=
  text.isEmpty || startsWithList (pyStrip text.toList) noInfoSentence.toList

/-- Model of `_route_question`: invoke the router chain (which may raise); strip and
uppercase its answer; fall back to `"RAG"` on an exception or an unrecognized
label. -/
def routeQuestion (classifier : Except String String) : String :=
  match classifier with
  | .error _ => "RAG"
  | .ok resp =>
    let label := (pyStrip resp.toList).map Char.toUpper
    if label == ("RAG").toList || label == ("SQL").toList then String.mk label else "RAG"

/-- The `debug_info` dictionary of `answer_hotel_query_orchestrator`. -/
structure DebugInfo where
  route_label : Option String
  primary_agent : Option String
  final_agent : Option String
  fallback_used : Bool
  notes : List String
  deriving DecidableEq

/-- The answer built by the outer `except` block of the orchestrator. -/
def orchUnexpectedAnswer (e : String) : String :=
  "❌ Unexpected error while processing your question in the orchestrator.\n\nError: `"
    ++ e ++ "`"

/-- The `debug_info` contents at the outer `except` block: the route label and
primary agent were already recorded before any statement that can raise, and
`fallback_used` is still `False` there (every fallback call sits inside an
inner `try` whose handler does not re-raise). -/
def orchErrorDebug (route e : String) : DebugInfo :=
  { route_label := some route,
    primary_agent := some (if route == "SQL" then "SQL" else "RAG"),
    final_agent := some ("ERROR"),
    fallback_used := false,
    notes := [("Unexpected error in orchestrator: ") ++ e] }

/-- The body of `answer_hotel_query_orchestrator` (everything inside the outer
`try`), for a fixed routing label: primary engine, textual failure detection,
fallback engine inside an inner `try`.  `sqlAgent` and `ragAgent` are the
results of calling the two engines for this question; an `Except.error` models
the call raising. -/
def orchestratorBody (route : String) (sqlAgent ragAgent : Except String String) :
    Except String (String × DebugInfo) :=
  let d1 : DebugInfo :=
    { route_label := some route, primary_agent := none, final_agent := none,
      fallback_used := false, notes := [] }
  if route == "SQL" then
    let d2 := { d1 with primary_agent := some ("SQL") }
    match sqlAgent with
    | .error e => .error e
    | .ok sqlAnswer =>
      if looksLikeSqlError sqlAnswer then
        let d3 := { d2 with
          fallback_used := true,
          notes := d2.notes ++ [("SQL answer looked like an error, fallback to RAG")] }
        match ragAgent with
        | .ok ragAnswer => .ok (ragAnswer, { d3 with final_agent := some ("RAG") })
        | .error e =>
          .ok (sqlAnswer, { d3 with
                final_agent := some ("SQL (error)"),
                notes := d3.notes ++ [("RAG fallback failed: ") ++ e] })
      else .ok (sqlAnswer, { d2 with final_agent := some ("SQL") })
  else
    let d2 := { d1 with primary_agent := some ("RAG") }
    match ragAgent with
    | .error e => .error e
    | .ok ragAnswer =>
      if looksLikeRagNoInfo ragAnswer then
        let d3 := { d2 with
          fallback_used := true,
          notes := d2.notes ++ [("RAG returned \x27no info\x27, fallback to SQL")] }
        match sqlAgent with
        | .ok sqlAnswer => .ok (sqlAnswer, { d3 with final_agent := some ("SQL") })
        | .error e =>
          .ok (ragAnswer, { d3 with
                final_agent := some ("RAG (no info)"),
                notes := d3.notes ++ [("SQL fallback failed: ") ++ e] })
      else .ok (ragAnswer, { d2 with final_agent := some ("RAG") })

/-- Python `try body except Exception as e: handler e` in the `Except` model. -/
def pyTry {α : Type} (body : Except String α) (handler : String → Except String α) :
    Except String α :=
  match body with
  | .ok a => .ok a
  | .error e => handler e

/-- Model of `answer_hotel_query_orchestrator` as an `Except`-valued computation: the
body guarded by the top-level `try/except`. An `Except.error` result would mean
an exception escapes to the caller. -/
def answerHotelQueryOrchestratorE (route : String) (sqlAgent ragAgent : Except String String) :
    Except String (String × DebugInfo) :=
  pyTry (orchestratorBody route sqlAgent ragAgent)
    (fun e => .ok (orchUnexpectedAnswer e, orchErrorDebug route e))

/-- Model of `answer_hotel_query_orchestrator` from `agents/hotel_orchestrator_agent.py`
(with the optional UI debug block disabled, its default): final answer plus the
`debug_info` trace. -/
def answerHotelQueryOrchestrator (route : String) (sqlAgent ragAgent : Except String String) :
    String × DebugInfo :=
  match answerHotelQueryOrchestratorE route sqlAgent ragAgent with
  | .ok r => r
  | .error e => (orchUnexpectedAnswer e, orchErrorDebug route e)

/-- A concrete collaborator environment for the query pipeline: generation
succeeds, execution always raises a syntax error. -/
def sqlEnvW : SqlAgentEnv :=
  { connectDb := .ok (),
    generate := .ok ("SELECT 1"),
    dbRun := fun _ => .error ("syntax error at or near \"FROM\""),
    explain := fun _ r => .ok (r) }

/-!  Lemmas about the sanitizer. -/

theorem isWordChar_eq_false_of_isSpaceChar {c : Char} (h : isSpaceChar c = true) :
    isWordChar c = false := by
  simp only [isSpaceChar, Bool.or_eq_true, beq_iff_eq] at h
  rcases h with ((((h | h) | h) | h) | h) | h <;> subst h <;> decide

theorem flagAfter_append (b : Bool) (xs ys : List Char) :
    flagAfter b (xs ++ ys) = flagAfter (flagAfter b xs) ys := by
  induction xs generalizing b with
  | nil => rfl
  | cons c cs ih => simp [flagAfter, ih]

theorem flagAfter_space : ∀ (ws : List Char) (b : Bool), ws ≠ [] →
    (∀ c ∈ ws, isSpaceChar c = true) → flagAfter b ws = false
  | [], _, h, _ => absurd rfl h
  | [w], _, _, hm => by
    simp only [flagAfter]
    exact isWordChar_eq_false_of_isSpaceChar (hm w (by simp))
  | w :: w' :: ws, b, _, hm => by
    have := flagAfter_space (w' :: ws) (isWordChar w) (by simp)
      (fun c hc => hm c (by simp only [List.mem_cons] at hc ⊢; tauto))
    simpa [flagAfter] using this

theorem hasIsolatedOn_append {pre rest : List Char} {b : Bool}
    (h : hasIsolatedOn (flagAfter b pre) rest = true) :
    hasIsolatedOn b (pre ++ rest) = true := by
  induction pre generalizing b with
  | nil => simpa [flagAfter] using h
  | cons c cs ih =>
    have h2 := ih (b := isWordChar c) (by simpa [flagAfter] using h)
    simp [hasIsolatedOn, h2]

theorem matchAliasDecl_eq_some {l i r : List Char}
    (h : matchAliasDecl l = some (i, r)) :
    ∃ ws, l = i ++ ws ++ 'o' :: 'n' :: r ∧ ws ≠ [] ∧
      (∀ c ∈ ws, isSpaceChar c = true) ∧ headNotWord r = true := by
  simp only [matchAliasDecl] at h
  split at h
  · exact absurd h (by simp)
  · rename_i hws
    split at h
    · rename_i heq
      split at h
      · rename_i hnw
        simp only [Option.some.injEq, Prod.mk.injEq] at h
        obtain ⟨hi, hr⟩ := h
        subst hi
        subst hr
        refine ⟨(l.dropWhile isWordChar).takeWhile isSpaceChar, ?_, ?_, ?_, hnw⟩
        · conv_lhs =>
            rw [← List.takeWhile_append_dropWhile (p := isWordChar) (l := l),
              ← List.takeWhile_append_dropWhile (p := isSpaceChar) (l := l.dropWhile isWordChar),
              heq]
          exact (List.append_assoc _ _ _).symm
        · simpa [List.isEmpty_iff] using hws
        · exact fun c hc => List.mem_takeWhile_imp hc
      · exact absurd h (by simp)
    · exact absurd h (by simp)

theorem hasIsolatedOn_of_matchAliasDecl {l : List Char} {p : List Char × List Char}
    (h : matchAliasDecl l = some p) (b : Bool) : hasIsolatedOn b l = true := by
  obtain ⟨ws, hl, hne, hsp, hnw⟩ := matchAliasDecl_eq_some (i := p.1) (r := p.2) (by simpa using h)
  subst hl
  have hstep : hasIsolatedOn (flagAfter b (p.1 ++ ws)) ('o' :: 'n' :: p.2) = true := by
    have hfa : flagAfter b (p.1 ++ ws) = false := by
      rw [flagAfter_append]; exact flagAfter_space ws _ hne hsp
    rw [hfa]
    simp [hasIsolatedOn, hnw]
  have h2 := hasIsolatedOn_append (b := b) hstep
  simpa [List.append_assoc] using h2

theorem sub1_fix : ∀ (f : Nat) (b : Bool) (l : List Char),
    hasIsolatedOn b l = false → sub1 f b l = l
  | 0, _, _, _ => rfl
  | _ + 1, _, [], _ => rfl
  | f + 1, b, c :: cs, h => by
    have hor := Bool.or_eq_false_iff.mp (by simpa only [hasIsolatedOn] using h)
    simp only [sub1]
    split
    · rename_i hgate
      cases hm : matchAliasDecl (c :: cs) with
      | some p =>
        exact absurd (hasIsolatedOn_of_matchAliasDecl hm b) (by simp [h])
      | none =>
        simp [sub1_fix f (isWordChar c) cs hor.2]
    · simp [sub1_fix f (isWordChar c) cs hor.2]

theorem matchOnDot_eq_some {l r : List Char} (h : matchOnDot l = some r) :
    l = 'o' :: 'n' :: '.' :: r := by
  unfold matchOnDot at h
  split at h
  · simp only [Option.some.injEq] at h
    rw [h]
  · exact absurd h (by simp)

theorem sub2_fix : ∀ (f : Nat) (b : Bool) (l : List Char),
    hasIsolatedOn b l = false → sub2 f b l = l
  | 0, _, _, _ => rfl
  | _ + 1, _, [], _ => rfl
  | f + 1, b, c :: cs, h => by
    have hor := Bool.or_eq_false_iff.mp (by simpa only [hasIsolatedOn] using h)
    simp only [sub2]
    split
    · simp [sub2_fix f (isWordChar c) cs hor.2]
    · rename_i hb
      cases hm : matchOnDot (c :: cs) with
      | some rest =>
        have hshape := matchOnDot_eq_some hm
        have hc : c = 'o' := by injection hshape
        have hcs : cs = 'n' :: '.' :: rest := by injection hshape
        rw [Bool.not_eq_true] at hb
        subst hb; subst hc; subst hcs
        have : isWordChar '.' = false := by decide
        simp [hasIsolatedOn, headNotWord, this] at h
      | none =>
        simp [sub2_fix f (isWordChar c) cs hor.2]

/-- A statement with no standalone lowercase `on` is a fixed point of
`_sanitize_sql`: neither rewrite rule can fire on it. -/
theorem sanitizeSql_fix {l : List Char} (h : hasIsolatedOn false l = false) :
    sanitizeSql l = l := by
  by_cases he : l.isEmpty
  · simp [sanitizeSql, he]
  · simp only [sanitizeSql, he, if_false, pySub1, pySub2]
    rw [sub1_fix _ _ _ h, sub2_fix _ _ _ h]
    simp

/-!  Lemmas about the adaptive retriever. -/

theorem length_insertByScore {α : Type} (x : α × ℚ) (l : List (α × ℚ)) :
    (insertByScore x l).length = l.length + 1 := by
  induction l with
  | nil => rfl
  | cons y ys ih =>
    simp only [insertByScore]
    split <;> simp [ih]

theorem length_sortCandidates {α : Type} (l : List (α × ℚ)) :
    (sortCandidates l).length = l.length := by
  induction l with
  | nil => rfl
  | cons x xs ih => simp [sortCandidates, length_insertByScore, ih]

theorem mem_insertByScore {α : Type} {x y : α × ℚ} {l : List (α × ℚ)} :
    y ∈ insertByScore x l ↔ y = x ∨ y ∈ l := by
  induction l with
  | nil => simp [insertByScore]
  | cons z zs ih =>
    simp only [insertByScore]
    split
    · simp only [List.mem_cons, ih]
      tauto
    · simp only [List.mem_cons]
      try tauto

theorem pairwise_insertByScore {α : Type} {x : α × ℚ} {l : List (α × ℚ)}
    (h : l.Pairwise (fun a b => a.2 ≤ b.2)) :
    (insertByScore x l).Pairwise (fun a b => a.2 ≤ b.2) := by
  induction l with
  | nil => simp [insertByScore]
  | cons y ys ih =>
    rw [List.pairwise_cons] at h
    obtain ⟨hy, hys⟩ := h
    simp only [insertByScore]
    split
    · rename_i hle
      rw [List.pairwise_cons]
      refine ⟨fun a ha => ?_, ih hys⟩
      rcases mem_insertByScore.mp ha with rfl | ha
      · exact hle
      · exact hy a ha
    · rename_i hgt
      have hxy : x.2 ≤ y.2 := le_of_lt (lt_of_not_le hgt)
      rw [List.pairwise_cons]
      refine ⟨fun a ha => ?_, List.pairwise_cons.mpr ⟨hy, hys⟩⟩
      rcases List.mem_cons.mp ha with rfl | ha
      · exact hxy
      · exact le_trans hxy (hy a ha)

theorem pairwise_sortCandidates {α : Type} (l : List (α × ℚ)) :
    (sortCandidates l).Pairwise (fun a b => a.2 ≤ b.2) := by
  induction l with
  | nil => simp [sortCandidates]
  | cons x xs ih => exact pairwise_insertByScore ih

theorem selectLoop_isTake {α : Type} (minD maxD : Nat) (cutoff : ℚ) :
    ∀ (l : List (α × ℚ)) (idx ch : Nat),
      ∃ k, (selectLoop minD maxD cutoff idx ch l).1 = l.take k
  | [], _, _ => ⟨0, rfl⟩
  | (d, s) :: rest, idx, ch => by
    simp only [selectLoop]
    split
    · obtain ⟨k, hk⟩ := selectLoop_isTake minD maxD cutoff rest (idx + 1) (ch + 1)
      exact ⟨k + 1, by simp [hk]⟩
    · split
      · exact ⟨0, by simp⟩
      · split
        · obtain ⟨k, hk⟩ := selectLoop_isTake minD maxD cutoff rest (idx + 1) (ch + 1)
          exact ⟨k + 1, by simp [hk]⟩
        · exact ⟨0, by simp⟩

theorem selectLoop_length_all {α : Type} (minD maxD : Nat) (cutoff : ℚ) :
    ∀ (l : List (α × ℚ)) (ch : Nat), ch + l.length ≤ minD →
      (selectLoop minD maxD cutoff (ch + 1) ch l).1.length = l.length
  | [], _, _ => rfl
  | (d, s) :: rest, ch, h => by
    simp only [List.length_cons] at h
    have hidx : ch + 1 ≤ minD := by omega
    simp only [selectLoop, if_pos hidx, List.length_cons]
    have ihl := selectLoop_length_all minD maxD cutoff rest (ch + 1) (by omega)
    omega

theorem selectLoop_length_lower {α : Type} (minD maxD : Nat) (cutoff : ℚ) :
    ∀ (l : List (α × ℚ)) (ch : Nat), minD ≤ ch + l.length →
      minD ≤ ch + (selectLoop minD maxD cutoff (ch + 1) ch l).1.length
  | [], ch, h => by simpa using h
  | (d, s) :: rest, ch, h => by
    simp only [List.length_cons] at h
    by_cases hidx : ch + 1 ≤ minD
    · simp only [selectLoop, if_pos hidx, List.length_cons]
      have ihl := selectLoop_length_lower minD maxD cutoff rest (ch + 1) (by omega)
      omega
    · simp only [selectLoop, if_neg hidx]
      split
      · simpa using by omega
      · split
        · simp only [List.length_cons]
          omega
        · simpa using by omega

theorem selectLoop_length_upper {α : Type} (minD maxD : Nat) (cutoff : ℚ)
    (hmm : minD ≤ maxD) :
    ∀ (l : List (α × ℚ)) (ch : Nat), ch + 1 ≤ minD ∨ ch ≤ maxD →
      ch + (selectLoop minD maxD cutoff (ch + 1) ch l).1.length ≤ maxD
  | [], ch, hd => by
    simp only [selectLoop, List.length_nil]
    omega
  | (d, s) :: rest, ch, hd => by
    by_cases hidx : ch + 1 ≤ minD
    · simp only [selectLoop, if_pos hidx, List.length_cons]
      have ihl := selectLoop_length_upper minD maxD cutoff hmm rest (ch + 1)
        (Or.inr (le_trans hidx hmm))
      omega
    · simp only [selectLoop, if_neg hidx]
      split
      · rename_i hmax
        simp only [List.length_nil]
        omega
      · rename_i hmax
        split
        · have ihl := selectLoop_length_upper minD maxD cutoff hmm rest (ch + 1)
            (Or.inr (by omega))
          simp only [List.length_cons]
          omega
        · simp only [List.length_nil]
          omega

theorem selectLoop_reasons {α : Type} (minD maxD : Nat) (cutoff : ℚ) :
    ∀ (l : List (α × ℚ)) (idx ch : Nat) (s : String),
      s ∈ (selectLoop minD maxD cutoff idx ch l).2 →
        s = "within_min_docs" ∨ s = "score<=cutoff" ∨
          s = "score>cutoff_break" ∨ s = "max_docs_reached"
  | [], _, _, s, h => absurd h (by simp [selectLoop])
  | (d, sc) :: rest, idx, ch, s, h => by
    simp only [selectLoop] at h
    split at h
    · rcases List.mem_cons.mp h with rfl | h2
      · tauto
      · exact selectLoop_reasons minD maxD cutoff rest (idx + 1) (ch + 1) s h2
    · split at h
      · simp only [List.mem_singleton] at h
        tauto
      · split at h
        · rcases List.mem_cons.mp h with rfl | h2
          · tauto
          · exact selectLoop_reasons minD maxD cutoff rest (idx + 1) (ch + 1) s h2
        · simp only [List.mem_singleton] at h
          tauto

/-!  Assembly lemmas. -/

theorem retrieve_eq_of_not_empty {α : Type} {cands : List (α × ℚ)}
    (he : cands.isEmpty = false) (minD maxD pool : Nat) (absT relM : ℚ) :
    retrieveDocsAdaptive cands minD maxD pool absT relM =
      (((selectLoop minD maxD
            (ratMin absT (Rat.mul (headScore (sortCandidates cands)) relM)) 1 0
            (sortCandidates cands)).1.map Prod.fst),
       .adaptive cands.length minD maxD pool (headScore (sortCandidates cands)) absT relM
         (ratMin absT (Rat.mul (headScore (sortCandidates cands)) relM))
         ((selectLoop minD maxD
             (ratMin absT (Rat.mul (headScore (sortCandidates cands)) relM)) 1 0
             (sortCandidates cands)).1.map Prod.fst).length
         (selectLoop minD maxD
             (ratMin absT (Rat.mul (headScore (sortCandidates cands)) relM)) 1 0
             (sortCandidates cands)).2) := by
  simp [retrieveDocsAdaptive, he]

/-!  The claims. -/

/-- Claim C1, counterexample: the claim quantifies over any `min_docs` and
`max_docs`; with `min_docs = 2 > max_docs = 1` and two candidates
(`candidateCount = 2 ≥ min_docs`), the loop unconditionally selects the first
`min_docs` candidates, so `selected = 2 > max_docs = 1`, refuting
`min_docs ≤ selected ≤ max_docs`. -/
theorem c1_counterexample :
    2 ≤ ([((0 : Nat), (1 : ℚ)), ((1 : Nat), (2 : ℚ))] : List (Nat × ℚ)).length ∧
    (retrieveDocsAdaptive [((0 : Nat), (1 : ℚ)), ((1 : Nat), (2 : ℚ))]
        2 1 120 (mkRat 9 10) (mkRat 5 4)).1.length = 2 ∧
    ¬ (retrieveDocsAdaptive [((0 : Nat), (1 : ℚ)), ((1 : Nat), (2 : ℚ))]
        2 1 120 (mkRat 9 10) (mkRat 5 4)).1.length ≤ 1 :=
  ⟨by decide, by decide, by decide⟩

/-- Claim C1 (amended with `min_docs ≤ max_docs`, which the counterexample
forces): for every candidate list and parameters with `min_docs ≤ max_docs`,
if `candidateCount ≥ min_docs` then `min_docs ≤ selected ≤ max_docs`, and if
`candidateCount < min_docs` then `selected = candidateCount`. -/
theorem c1_selection_count_invariant {α : Type} (cands : List (α × ℚ))
    (minD maxD pool : Nat) (absT relM : ℚ) (hmm : minD ≤ maxD) :
    (minD ≤ cands.length →
      minD ≤ (retrieveDocsAdaptive cands minD maxD pool absT relM).1.length ∧
        (retrieveDocsAdaptive cands minD maxD pool absT relM).1.length ≤ maxD) ∧
    (cands.length < minD →
      (retrieveDocsAdaptive cands minD maxD pool absT relM).1.length = cands.length) := by
  by_cases he : cands.isEmpty
  · have hnil : cands = [] := List.isEmpty_iff.mp he
    subst hnil
    constructor
    · intro h
      simp only [List.length_nil, Nat.le_zero] at h
      simp [retrieveDocsAdaptive, h]
    · intro _
      simp [retrieveDocsAdaptive]
  · have he' : cands.isEmpty = false := by simpa using he
    rw [retrieve_eq_of_not_empty he']
    simp only [List.length_map]
    have hlen : (sortCandidates cands).length = cands.length := length_sortCandidates cands
    constructor
    · intro h
      constructor
      · have := selectLoop_length_lower minD maxD
          (ratMin absT (Rat.mul (headScore (sortCandidates cands)) relM))
          (sortCandidates cands) 0 (by omega)
        simpa using this
      · have := selectLoop_length_upper minD maxD
          (ratMin absT (Rat.mul (headScore (sortCandidates cands)) relM)) hmm
          (sortCandidates cands) 0 (Or.inr (Nat.zero_le _))
        simpa using this
    · intro h
      have := selectLoop_length_all minD maxD
        (ratMin absT (Rat.mul (headScore (sortCandidates cands)) relM))
        (sortCandidates cands) 0 (by omega)
      simpa [hlen] using this

/-- Claim C1, witness of the amended theorem at a concrete run. -/
theorem c1_selection_count_invariant_witness :
    1 ≤ (retrieveDocsAdaptive [(("d1" : String), (1 : ℚ)), (("d2" : String), (3 : ℚ))]
        1 2 10 2 (mkRat 3 2)).1.length ∧
    (retrieveDocsAdaptive [(("d1" : String), (1 : ℚ)), (("d2" : String), (3 : ℚ))]
        1 2 10 2 (mkRat 3 2)).1.length ≤ 2 :=
  (c1_selection_count_invariant [(("d1" : String), (1 : ℚ)), (("d2" : String), (3 : ℚ))]
    1 2 10 2 (mkRat 3 2) (by decide)).1 (by decide)

/-- Claim C5: for every non-empty candidate list, the selection equals a
`take`-prefix of the distance-sorted candidate list (so no candidate is
skipped in favor of a worse-scoring later one), the selected passages come
back in ascending distance order, and every per-candidate trace reason is one
of the four recorded decision markers. -/
theorem c5_selection_is_sorted_take {α : Type} (cands : List (α × ℚ))
    (minD maxD pool : Nat) (absT relM : ℚ) (hne : cands ≠ []) :
    ∃ k,
      (retrieveDocsAdaptive cands minD maxD pool absT relM).1
          = ((sortCandidates cands).map Prod.fst).take k ∧
      List.Pairwise (fun a b : ℚ => a ≤ b)
          (((sortCandidates cands).map Prod.snd).take k) ∧
      ∀ s ∈ (retrieveDocsAdaptive cands minD maxD pool absT relM).2.reasons,
        s = "within_min_docs" ∨ s = "score<=cutoff" ∨
          s = "score>cutoff_break" ∨ s = "max_docs_reached" := by
  have he : cands.isEmpty = false := by
    cases cands with
    | nil => exact absurd rfl hne
    | cons a as => rfl
  rw [retrieve_eq_of_not_empty he]
  obtain ⟨k, hk⟩ := selectLoop_isTake minD maxD
    (ratMin absT (Rat.mul (headScore (sortCandidates cands)) relM))
    (sortCandidates cands) 1 0
  refine ⟨k, ?_, ?_, ?_⟩
  · rw [hk]
    simp [List.map_take]
  · have hp := pairwise_sortCandidates cands
    have hmap : ((sortCandidates cands).map Prod.snd).Pairwise (fun a b : ℚ => a ≤ b) :=
      List.pairwise_map.mpr hp
    exact List.Pairwise.sublist (List.take_sublist _ _) hmap
  · intro s hs
    simp only [RetrievalTrace.reasons] at hs
    exact selectLoop_reasons minD maxD
      (ratMin absT (Rat.mul (headScore (sortCandidates cands)) relM))
      (sortCandidates cands) 1 0 s hs

/-- Claim C5, witness at a concrete run with a deliberately unsorted
candidate list. -/
theorem c5_selection_is_sorted_take_witness :
    ∃ k,
      (retrieveDocsAdaptive [(("b" : String), (3 : ℚ)), (("a" : String), (1 : ℚ))]
            1 5 10 2 (mkRat 3 2)).1
          = ((sortCandidates [(("b" : String), (3 : ℚ)), (("a" : String), (1 : ℚ))]).map
              Prod.fst).take k ∧
      List.Pairwise (fun a b : ℚ => a ≤ b)
          (((sortCandidates [(("b" : String), (3 : ℚ)), (("a" : String), (1 : ℚ))]).map
              Prod.snd).take k) ∧
      ∀ s ∈ (retrieveDocsAdaptive [(("b" : String), (3 : ℚ)), (("a" : String), (1 : ℚ))]
            1 5 10 2 (mkRat 3 2)).2.reasons,
        s = "within_min_docs" ∨ s = "score<=cutoff" ∨
          s = "score>cutoff_break" ∨ s = "max_docs_reached" :=
  c5_selection_is_sorted_take [(("b" : String), (3 : ℚ)), (("a" : String), (1 : ℚ))]
    1 5 10 2 (mkRat 3 2) (by decide)

/-- Claim C7: on an empty candidate list the adaptive retriever returns the
empty selection with the `no_candidates` trace, and the RAG engine then
returns the fixed no-information sentence, which begins with the exact prefix
tested by the router. -/
theorem c7_no_candidates_yields_no_info (minD maxD pool : Nat) (absT relM : ℚ)
    (llm : List String → Except String String) :
    retrieveDocsAdaptive ([] : List (String × ℚ)) minD maxD pool absT relM
        = ([], RetrievalTrace.noCandidates 0) ∧
    (retrieveDocsAdaptive ([] : List (String × ℚ)) minD maxD pool absT relM).2.mode
        = "no_candidates" ∧
    answerHotelQuestionRag ([] : List (String × ℚ)) minD maxD pool absT relM llm
        = noInfoAnswer ∧
    startsWithList noInfoAnswer.toList
        ("I couldn\x27t find relevant information in the knowledge base").toList = true :=
  ⟨rfl, rfl, rfl, by decide⟩

/-- Claim C3, counterexample: sanitization is not idempotent.  On
`"a on on"` the first pass rewrites `"a on"` to `"a occ"` and, because the
non-overlapping scan resumes after the match, leaves the second `on`
untouched (`"a occ on"`); a second pass then matches `"occ on"` and produces
`"a occ occ"`. -/
theorem c3_counterexample :
    sanitizeSql (sanitizeSql ("a on on").toList) ≠ sanitizeSql ("a on on").toList := by
  decide

/-- Claim C3 (amended, as forced by the counterexample): sanitization is
idempotent on every statement whose sanitized text contains no residual
standalone lowercase `on` token (on such texts a further pass is the
identity); in general a second application can rewrite `on` tokens that the
first non-overlapping scan skipped. -/
theorem c3_sanitize_idempotent_on_stable (l : List Char)
    (h : hasIsolatedOn false (sanitizeSql l) = false) :
    sanitizeSql (sanitizeSql l) = sanitizeSql l :=
  sanitizeSql_fix h

/-- Claim C3, witness of the amended theorem. -/
theorem c3_sanitize_idempotent_on_stable_witness :
    sanitizeSql (sanitizeSql ("x on y").toList) = sanitizeSql ("x on y").toList :=
  c3_sanitize_idempotent_on_stable (("x on y").toList) (by decide)

/-- Claim C4, counterexample: sanitization does not rewrite only the alias
token and its qualified references.  First input: the lowercase
JOIN-condition keyword `on` (not an alias) is rewritten to `occ`, destroying
the join syntax.  Second input: the whitespace between the identifier and the
token is collapsed to a single space, so the output is not the input with
only the token replaced. -/
theorem c4_counterexample :
    sanitizeSql ("FROM a JOIN b on a.x = b.x").toList
        = ("FROM a JOIN b occ a.x = b.x").toList ∧
    sanitizeSql ("a  on").toList = ("a occ").toList ∧
    sanitizeSql ("a  on").toList ≠ ("a  occ").toList :=
  ⟨by decide, by decide, by decide⟩

/-- Claim C4 (amended): sanitization is purely lexical.  Any statement with no
standalone lowercase `on` token is returned verbatim - in particular an
identifier containing `on` inside a longer word is untouched - while every
standalone `on` after an identifier plus whitespace is rewritten to `occ`
(with the whitespace collapsed to one space, and including lowercase keyword
occurrences, not only aliases), and boundary-preceded `on.` becomes `occ.`;
on the canonical input both the alias declaration and its qualified reference
are renamed to `occ`. -/
theorem c4_sanitize_rewrites_only_isolated_on :
    sanitizeSql ("SELECT * FROM rooms r JOIN occupied_nights on ON on.room_id = r.id").toList
        = ("SELECT * FROM rooms r JOIN occupied_nights occ ON occ.room_id = r.id").toList ∧
    ∀ l : List Char, hasIsolatedOn false l = false → sanitizeSql l = l :=
  ⟨by decide, fun _ h => sanitizeSql_fix h⟩

/-- Claim C4, witness of the amended theorem: identifiers containing `on`
inside longer words (`monitor`, `stations`) are untouched. -/
theorem c4_sanitize_rewrites_only_isolated_on_witness :
    sanitizeSql ("SELECT monitor FROM stations").toList
        = ("SELECT monitor FROM stations").toList :=
  c4_sanitize_rewrites_only_isolated_on.2 (("SELECT monitor FROM stations").toList) (by decide)

/-- Claim C10: the sanitizer matches only the lowercase token `on`.  The
canonical statement written with uppercase `ON` (both the alias position and
the qualified reference `ON.room_id`) is returned unchanged, and in general
every statement with no standalone lowercase `on` - in particular one whose
on-like tokens are all upper or mixed case - is returned unchanged. -/
theorem c10_sanitizer_matches_lowercase_only :
    sanitizeSql ("SELECT * FROM rooms r JOIN occupied_nights ON ON.room_id = r.id").toList
        = ("SELECT * FROM rooms r JOIN occupied_nights ON ON.room_id = r.id").toList ∧
    ∀ l : List Char, hasIsolatedOn false l = false → sanitizeSql l = l :=
  ⟨by decide, fun _ h => sanitizeSql_fix h⟩

/-- Claim C10, witness: a statement using the uppercase `ON` keyword and a
mixed-case `On.` reference is left unchanged. -/
theorem c10_sanitizer_matches_lowercase_only_witness :
    sanitizeSql ("SELECT a FROM t1 JOIN t2 ON On.id = t1.id").toList
        = ("SELECT a FROM t1 JOIN t2 ON On.id = t1.id").toList :=
  c10_sanitizer_matches_lowercase_only.2
    (("SELECT a FROM t1 JOIN t2 ON On.id = t1.id").toList) (by decide)

/-- Claim C6: whenever a non-empty SQL statement is extracted and the
relational store raises on the sanitized statement, the pipeline returns the
user-facing execution-error answer (which contains the underlying error
message as a substring), executes the statement exactly once, and never
reaches the explanation phase (the result does not depend on `env.explain`). -/
theorem c6_execution_failure_no_retry (env : SqlAgentEnv) (raw e : String)
    (hdb : env.connectDb = Except.ok ())
    (hgen : env.generate = Except.ok raw)
    (hq : extractSql raw.toList ≠ [])
    (hrun : env.dbRun (sanitizeSql (extractSql raw.toList)) = Except.error e) :
    answerBookingQuestionSql env = (sqlExecErrorAnswer e, 1) ∧
    ∃ pre post, sqlExecErrorAnswer e = pre ++ e ++ post := by
  constructor
  · have hq' : (extractSql raw.toList).isEmpty = false := by
      cases hx : extractSql raw.toList with
      | nil => exact absurd hx hq
      | cons a as => rfl
    unfold answerBookingQuestionSql answerBookingQuestionSqlBody
    rw [hdb, hgen]
    have hq2 : extractSql raw.data ≠ [] := hq
    have hrun2 : env.dbRun (sanitizeSql (extractSql raw.data)) = Except.error e := hrun
    simp [hq2, hrun2]
  · exact ⟨"❌ There was an error executing the SQL query generated for your question.\n\nError: `",
      "`\n\nYou might want to check date ranges, hotel names or filters.", rfl⟩

/-- Claim C6, witness at a concrete environment whose store raises the
canonical syntax error. -/
theorem c6_execution_failure_no_retry_witness :
    answerBookingQuestionSql sqlEnvW
        = (sqlExecErrorAnswer ("syntax error at or near \"FROM\""), 1) ∧
    ∃ pre post, sqlExecErrorAnswer ("syntax error at or near \"FROM\"")
        = pre ++ ("syntax error at or near \"FROM\"") ++ post :=
  c6_execution_failure_no_retry sqlEnvW ("SELECT 1") ("syntax error at or near \"FROM\"")
    rfl rfl (by decide) rfl

/-- Claim C2, counterexample: with the Semantic (RAG) engine primary, a
primary answer that "looks like an error" per the §4.3 contract (non-empty,
left-trimmed text beginning with the error-marker glyph) does NOT trigger the
fallback: the RAG-primary branch only tests the no-information sentence.  The
claim predicts fallback for this input, the code does not fall back. -/
theorem c2_counterexample :
    (("❌ Error while processing the question: boom" : String).isEmpty = false) ∧
    startsWithList (pyLstrip ("❌ Error while processing the question: boom").toList)
        (("❌").toList) = true ∧
    (answerHotelQueryOrchestrator "RAG" (.ok ("a sql answer"))
        (.ok ("❌ Error while processing the question: boom"))).2.fallback_used = false :=
  ⟨by decide, by decide, by decide⟩

/-- Claim C2 (amended): the fallback fires iff the primary answer matches the
detector of the primary route - for an Analytical (SQL) primary, iff the
answer is empty or its left-stripped text begins with the error glyph; for a
Semantic (RAG) primary, iff the answer is empty or its stripped text begins
with the fixed no-information sentence.  The error-glyph test is not applied
to RAG-primary answers.  When the primary engine itself raises, no fallback is
attempted (the top-level handler answers instead). -/
theorem c2_fallback_textual_contract (sqlAns ragAns : String)
    (sqlA ragA : Except String String) :
    ((answerHotelQueryOrchestrator "SQL" (.ok sqlAns) ragA).2.fallback_used
        = (sqlAns.isEmpty || startsWithList (pyLstrip sqlAns.toList) (("❌").toList))) ∧
    ((answerHotelQueryOrchestrator "RAG" sqlA (.ok ragAns)).2.fallback_used
        = (ragAns.isEmpty || startsWithList (pyStrip ragAns.toList) noInfoSentence.toList)) ∧
    (∀ e, (answerHotelQueryOrchestrator "SQL" (.error e) ragA).2.fallback_used = false) ∧
    (∀ e, (answerHotelQueryOrchestrator "RAG" sqlA (.error e)).2.fallback_used = false) := by
  refine ⟨?_, ?_, ?_, ?_⟩
  · by_cases h : looksLikeSqlError sqlAns
    · cases ragA <;>
        simp_all [answerHotelQueryOrchestrator, answerHotelQueryOrchestratorE, pyTry,
          orchestratorBody, looksLikeSqlError]
    · cases ragA <;>
        simp_all [answerHotelQueryOrchestrator, answerHotelQueryOrchestratorE, pyTry,
          orchestratorBody, looksLikeSqlError]
  · by_cases h : looksLikeRagNoInfo ragAns
    · cases sqlA <;>
        simp_all [answerHotelQueryOrchestrator, answerHotelQueryOrchestratorE, pyTry,
          orchestratorBody, looksLikeRagNoInfo]
    · cases sqlA <;>
        simp_all [answerHotelQueryOrchestrator, answerHotelQueryOrchestratorE, pyTry,
          orchestratorBody, looksLikeRagNoInfo]
  · intro e
    simp [answerHotelQueryOrchestrator, answerHotelQueryOrchestratorE, pyTry,
      orchestratorBody, orchErrorDebug]
  · intro e
    simp [answerHotelQueryOrchestrator, answerHotelQueryOrchestratorE, pyTry,
      orchestratorBody, orchErrorDebug]

/-- Claim C8: for every routing label and every collaborator behavior
(including raising engines), the orchestrator never lets an exception escape -
the `Except`-valued model always returns `ok` with the final answer - and any
exception raised inside the body is converted into the single user-facing
error answer built from the error message. -/
theorem c8_router_never_raises (route : String) (sqlA ragA : Except String String) :
    (answerHotelQueryOrchestratorE route sqlA ragA
        = Except.ok (answerHotelQueryOrchestrator route sqlA ragA)) ∧
    (∀ e, orchestratorBody route sqlA ragA = Except.error e →
      answerHotelQueryOrchestrator route sqlA ragA
        = (orchUnexpectedAnswer e, orchErrorDebug route e)) := by
  constructor
  · unfold answerHotelQueryOrchestrator answerHotelQueryOrchestratorE pyTry
    cases orchestratorBody route sqlA ragA <;> rfl
  · intro e hb
    unfold answerHotelQueryOrchestrator answerHotelQueryOrchestratorE pyTry
    rw [hb]

/-- Claim C8, witness: a raising primary SQL engine is converted into the
single orchestrator error answer. -/
theorem c8_router_never_raises_witness :
    answerHotelQueryOrchestrator "SQL" (.error ("boom")) (.ok ("x"))
        = (orchUnexpectedAnswer ("boom"), orchErrorDebug "SQL" ("boom")) :=
  (c8_router_never_raises "SQL" (.error ("boom")) (.ok ("x"))).2 ("boom") rfl

/-- Claim C9: `_route_question` returns the Semantic label `"RAG"` whenever
the classifier invocation raises, and whenever the normalized (stripped,
upper-cased) classifier output is neither of the two recognized labels. -/
theorem c9_route_defaults_to_rag (eMsg resp : String) :
    routeQuestion (Except.error eMsg) = "RAG" ∧
    (((pyStrip resp.toList).map Char.toUpper ≠ ("RAG").toList ∧
        (pyStrip resp.toList).map Char.toUpper ≠ ("SQL").toList) →
      routeQuestion (Except.ok resp) = "RAG") := by
  refine ⟨rfl, fun h => ?_⟩
  have h1 : ((pyStrip resp.toList).map Char.toUpper == ("RAG").toList) = false :=
    beq_eq_false_iff_ne.mpr h.1
  have h2 : ((pyStrip resp.toList).map Char.toUpper == ("SQL").toList) = false :=
    beq_eq_false_iff_ne.mpr h.2
  simp only [routeQuestion, h1, h2, Bool.or_self, Bool.false_eq_true, if_false]

/-- Claim C9, witness: a raising classifier and an unrecognized label both
route to `"RAG"`. -/
theorem c9_route_defaults_to_rag_witness :
    routeQuestion (Except.error ("boom")) = "RAG" ∧
    routeQuestion (Except.ok ("BANANA")) = "RAG" :=
  ⟨(c9_route_defaults_to_rag ("boom") ("BANANA")).1,
   (c9_route_defaults_to_rag ("boom") ("BANANA")).2 (by decide)⟩
